import Mathlib

/-!
Shallow embedding of the PDF batch-processing pipeline in `AIIntern Task/main.py`
(functions `list_pdfs`, `parse_pdf`, `store_pdf_metadata`, `summarize_text`,
`extract_keywords`, `process_pdf`, `process_all_pdfs`, `generate_report`),
together with theorems settling the specification claims.

Modelling conventions:
- Library collaborators (NLTK tokenizers, the sklearn TF-IDF vectorizer, PyPDF2,
  MongoDB) are modelled as explicit parameters or as input data, per section 6
  of the specification, which treats them as external collaborators.
- Machine reals only appear through sklearn scores; with a single synthetic
  document the TF-IDF weight of a term is its raw count times a constant
  positive factor (idf is identically 1 and the l2 row normalisation divides
  every entry by the same positive norm), so term ranking is embedded with the
  raw counts, which order exactly as the float scores do. For sentence scoring
  the vectorizer is kept abstract (a parameter returning per-sentence row sums
  as rationals).
- Python string methods are embedded structurally: `str.lower` maps
  `Char.toLower` over the characters, `str.isalpha` checks a nonempty
  all-alphabetic string, the truthiness test `not text.strip()` is the
  all-whitespace test, and `numpy.argsort` is a stable ascending argsort.
- Fallible code returns `Except`; each caught Python exception becomes an
  `Except.error` value.
-/

/-! Basic character facts used to reason about lower-casing. -/

theorem uint32_le_toNat (a b : UInt32) : (a ≤ b) ↔ a.toNat ≤ b.toNat := Iff.rfl

theorem char_toNat_ofNat_valid {n : Nat} (h : n.isValidChar) :
    (Char.ofNat n).toNat = n := by
  rw [Char.ofNat, dif_pos h]
  rfl

theorem char_isUpper_iff (c : Char) :
    c.isUpper = true ↔ (65 ≤ c.toNat ∧ c.toNat ≤ 90) := by
  have h65 : UInt32.toNat 65 = 65 := rfl
  have h90 : UInt32.toNat 90 = 90 := rfl
  simp only [Char.isUpper, Bool.and_eq_true, decide_eq_true_eq, uint32_le_toNat, ge_iff_le,
    h65, h90]
  exact Iff.rfl

theorem char_isLower_iff (c : Char) :
    c.isLower = true ↔ (97 ≤ c.toNat ∧ c.toNat ≤ 122) := by
  have h97 : UInt32.toNat 97 = 97 := rfl
  have h122 : UInt32.toNat 122 = 122 := rfl
  simp only [Char.isLower, Bool.and_eq_true, decide_eq_true_eq, uint32_le_toNat, ge_iff_le,
    h97, h122]
  exact Iff.rfl

theorem char_isUpper_toLower (c : Char) : (Char.toLower c).isUpper = false := by
  rw [Char.toLower]
  split
  case isTrue h =>
    have hv : (Char.toNat c + 32).isValidChar := Or.inl (by omega)
    have ht : (Char.ofNat (Char.toNat c + 32)).toNat = Char.toNat c + 32 :=
      char_toNat_ofNat_valid hv
    rw [Bool.eq_false_iff]
    intro hu
    rw [char_isUpper_iff] at hu
    omega
  case isFalse h =>
    rw [Bool.eq_false_iff]
    intro hu
    rw [char_isUpper_iff] at hu
    omega

theorem char_isAlpha_toLower (c : Char) (h : c.isAlpha = true) :
    (Char.toLower c).isAlpha = true := by
  rw [Char.isAlpha, Bool.or_eq_true] at h ⊢
  rw [Char.toLower]
  split
  case isTrue hr =>
    have hv : (Char.toNat c + 32).isValidChar := Or.inl (by omega)
    have ht : (Char.ofNat (Char.toNat c + 32)).toNat = Char.toNat c + 32 :=
      char_toNat_ofNat_valid hv
    right
    rw [char_isLower_iff]
    omega
  case isFalse hr => exact h

/-! Structural embeddings of the Python string primitives used by the script. -/

/-- Embedding of the Python expression `word.lower()`: lower-case every
character (`str.lower`, restricted to the basic latin range that
`Char.toLower` handles). -/
def pyLower (s : String) : String := ⟨s.data.map Char.toLower⟩

/-- Embedding of the Python test `word.isalpha()`: a nonempty string all of
whose characters are alphabetic. -/
def pyIsAlpha (s : String) : Bool := !s.data.isEmpty && s.data.all Char.isAlpha

/-- Embedding of the Python truthiness test `not text.strip()`: the string
contains no character that is not whitespace. -/
def pyBlank (s : String) : Bool := s.data.all Char.isWhitespace

/-- Embedding of the Python expression `"sep".join(parts)`. -/
def sjoin (sep : String) : List String → String
  | [] => ""
  | [x] => x
  | x :: xs => x ++ sep ++ sjoin sep xs

/-- Splits a character list at the characters satisfying `p`, keeping the
(possibly empty) runs between them. Helper for the tokenizers used as concrete
stand-ins for the NLTK collaborators in witnesses. -/
def splitRuns (p : Char → Bool) : List Char → List (List Char)
  | [] => [[]]
  | c :: cs =>
      let r := splitRuns p cs
      if p c then [] :: r
      else (c :: r.headD []) :: r.tail

/-- Maximal runs of characters not satisfying `p`, as nonempty strings. -/
def tokenizeOn (p : Char → Bool) (s : String) : List String :=
  ((splitRuns p s.data).map (fun cs => String.mk cs)).filter (fun w => w ≠ "")

/-- Concrete word tokenizer used in witnesses as a stand-in for the NLTK
`word_tokenize` collaborator; on space-separated ASCII words the two agree. -/
def splitWords (s : String) : List String := tokenizeOn (fun c => c = ' ') s

/-- Concrete sentence tokenizer used in witnesses as a stand-in for the NLTK
`sent_tokenize` collaborator: splits at periods. -/
def splitSentences (s : String) : List String := tokenizeOn (fun c => c = '.') s

/-- A sample of the NLTK English stop-word list (external library data; the
theorems are parametric in the actual set and witnesses use this sample). -/
def sampleStopwords : List String :=
  ["i", "me", "my", "the", "a", "an", "and", "or", "is", "are", "of", "to", "in", "it", "not"]

/-! Stable ascending argsort, the embedding of `numpy.ndarray.argsort`. -/

/-- Index comparison realising a stable ascending argsort of the score list
`s`: order by score, breaking ties by original position. This is a linear
order on indices, so the sorted permutation is unique. -/
def idxLeP (s : List ℚ) (i j : Nat) : Prop :=
  s.getD i 0 < s.getD j 0 ∨ (s.getD i 0 = s.getD j 0 ∧ i ≤ j)

instance (s : List ℚ) : DecidableRel (idxLeP s) := fun i j => by
  unfold idxLeP
  infer_instance

instance (s : List ℚ) : IsTotal Nat (idxLeP s) where
  total a b := by
    rcases lt_trichotomy (s.getD a 0) (s.getD b 0) with h | h | h
    · exact Or.inl (Or.inl h)
    · rcases Nat.le_total a b with hi | hi
      · exact Or.inl (Or.inr ⟨h, hi⟩)
      · exact Or.inr (Or.inr ⟨h.symm, hi⟩)
    · exact Or.inr (Or.inl h)

instance (s : List ℚ) : IsTrans Nat (idxLeP s) where
  trans a b c h1 h2 := by
    rcases h1 with h1 | ⟨h1e, h1i⟩ <;> rcases h2 with h2 | ⟨h2e, h2i⟩
    · exact Or.inl (lt_trans h1 h2)
    · exact Or.inl (h2e ▸ h1)
    · exact Or.inl (h1e ▸ h2)
    · exact Or.inr ⟨h1e.trans h2e, le_trans h1i h2i⟩

/-- Embedding of `scores.argsort()`: the indices of `s` sorted by ascending
score, ties in original order. -/
def argsortAsc (s : List ℚ) : List Nat :=
  (List.range s.length).insertionSort (idxLeP s)

theorem argsortAsc_sorted (s : List ℚ) : (argsortAsc s).Pairwise (idxLeP s) :=
  List.sorted_insertionSort (idxLeP s) _

theorem argsortAsc_perm (s : List ℚ) : List.Perm (argsortAsc s) (List.range s.length) :=
  List.perm_insertionSort _ _

theorem argsortAsc_length (s : List ℚ) : (argsortAsc s).length = s.length := by
  rw [(argsortAsc_perm s).length_eq, List.length_range]

theorem argsortAsc_nodup (s : List ℚ) : (argsortAsc s).Nodup :=
  ((argsortAsc_perm s).nodup_iff).mpr (List.nodup_range _)

theorem mem_argsortAsc {s : List ℚ} {i : Nat} : i ∈ argsortAsc s ↔ i < s.length := by
  rw [(argsortAsc_perm s).mem_iff, List.mem_range]

/-! Lexicographic order on strings, the embedding of the alphabetical order in
which sklearn reports its vocabulary (`get_feature_names_out` returns the
vocabulary sorted). -/

/-- Lexicographic comparison of character lists by code point. -/
def lexLe : List Char → List Char → Prop
  | [], _ => True
  | _ :: _, [] => False
  | a :: as, b :: bs => a.toNat < b.toNat ∨ (a = b ∧ lexLe as bs)

instance : DecidableRel lexLe := fun a b => by
  induction a generalizing b with
  | nil => exact isTrue trivial
  | cons x xs ih =>
    cases b with
    | nil => exact isFalse id
    | cons y ys => exact @instDecidableOr _ _ _ (@instDecidableAnd _ _ _ (ih ys))

/-- Code-point lexicographic order on strings. -/
def strLe (a b : String) : Prop := lexLe a.data b.data

instance : DecidableRel strLe := fun a b => inferInstanceAs (Decidable (lexLe a.data b.data))

instance : IsTotal String strLe where
  total a b := by
    show lexLe a.data b.data ∨ lexLe b.data a.data
    generalize a.data = x
    generalize b.data = y
    induction x generalizing y with
    | nil => exact Or.inl trivial
    | cons c cs ih =>
      cases y with
      | nil => exact Or.inr trivial
      | cons d ds =>
        rcases Nat.lt_trichotomy c.toNat d.toNat with h | h | h
        · exact Or.inl (Or.inl h)
        · have hcd : c = d := Char.ext (UInt32.eq_of_toBitVec_eq (BitVec.eq_of_toNat_eq h))
          rcases ih ds with h2 | h2
          · exact Or.inl (Or.inr ⟨hcd, h2⟩)
          · exact Or.inr (Or.inr ⟨hcd.symm, h2⟩)
        · exact Or.inr (Or.inl h)

instance : IsTrans String strLe where
  trans a b c h1 h2 := by
    show lexLe a.data c.data
    revert h1 h2
    show lexLe a.data b.data → lexLe b.data c.data → lexLe a.data c.data
    generalize a.data = x
    generalize b.data = y
    generalize c.data = z
    induction x generalizing y z with
    | nil => intro _ _; trivial
    | cons p ps ih =>
      intro h1 h2
      cases y with
      | nil => exact absurd h1 id
      | cons q qs =>
        cases z with
        | nil => exact absurd h2 id
        | cons u us =>
          rcases h1 with h1 | ⟨h1e, h1r⟩ <;> rcases h2 with h2 | ⟨h2e, h2r⟩
          · exact Or.inl (Nat.lt_trans h1 h2)
          · exact Or.inl (h2e ▸ h1)
          · exact Or.inl (h1e ▸ h2)
          · exact Or.inr ⟨h1e.trans h2e, ih qs us h1r h2r⟩

/-- Sorts a list of strings into ascending code-point lexicographic order. -/
def sortStrings (l : List String) : List String := l.insertionSort strLe

/-! Embedding of the script's functions, in source order. -/

/-- Embedding of `list_pdfs`: keep the directory entries whose name ends in
`.pdf` (`f.endswith('.pdf')`), in listing order. -/
def list_pdfs (entries : List String) : List String :=
  entries.filter (fun f => ".pdf".data.isSuffixOf f.data)

/-- Result of the PyPDF2 collaborator on one file: either opening/parsing the
file raises (`Except.error`), or it yields a page list where each page's
`extract_text()` either returns text or raises (a `None` return hits the
`None + ' '` TypeError, so it is also an error at that point). -/
abbrev PdfPages := Except String (List (Except String String))

/-- The accumulation loop of `parse_pdf`: `text += page.extract_text() + ' '`
stops at the first failing page, keeping the text accumulated so far. -/
def pageConcat : List (Except String String) → String
  | [] => ""
  | Except.error _ :: _ => ""
  | Except.ok p :: rest => p ++ " " ++ pageConcat rest

/-- Whether the page loop of `parse_pdf` hits a failing page. -/
def anyPageError : List (Except String String) → Bool
  | [] => false
  | Except.error _ :: _ => true
  | Except.ok _ :: rest => anyPageError rest

/-- Embedding of `parse_pdf`: returns the accumulated text together with
whether the `except` branch ran (`logging.error` was called). All failures are
caught inside the function; it always returns a string. -/
def parse_pdf : PdfPages → String × Bool
  | Except.error _ => ("", true)
  | Except.ok pages => (pageConcat pages, anyPageError pages)

/-- Embedding of the filtering comprehension in `extract_keywords`:
`[word.lower() for word in words if word.isalpha() and word.lower() not in
STOPWORDS]`. -/
def filteredWords (stop : List String) (ws : List String) : List String :=
  (ws.filter (fun w => pyIsAlpha w && !(stop.contains (pyLower w)))).map pyLower

/-- Tokens the sklearn `TfidfVectorizer` extracts from the space-joined
filtered words: its default token pattern keeps exactly the words of length at
least two (each filtered word is purely alphabetic, so joining on spaces and
re-tokenizing recovers the words themselves, minus the one-character ones). -/
def sklearnTokens (ws : List String) : List String :=
  ws.filter (fun w => 2 ≤ w.length)

/-- The vectorizer's vocabulary: the distinct tokens in ascending alphabetical
order, as reported by `get_feature_names_out`. -/
def sklearnVocab (toks : List String) : List String :=
  sortStrings toks.dedup

/-- The vocabulary of `extract_keywords` on a given text. -/
def kwVocab (wordTok : String → List String) (stop : List String) (text : String) :
    List String :=
  sklearnVocab (sklearnTokens (filteredWords stop (wordTok text)))

/-- Per-vocabulary-term scores of `extract_keywords`, embedded as raw token
counts: with the single synthetic document, every term's TF-IDF weight is its
count divided by one fixed positive norm, so counts give the same ranking and
the same ties as `vectors.toarray().flatten()`. Rationals are used so the
argsort embedding applies uniformly. -/
def kwScores (wordTok : String → List String) (stop : List String) (text : String) :
    List ℚ :=
  (kwVocab wordTok stop text).map
    (fun t => ((sklearnTokens (filteredWords stop (wordTok text))).count t : ℚ))

/-- Embedding of `extract_keywords`. `wordTok` is the NLTK `word_tokenize`
collaborator and `stop` the NLTK stop-word set. `fit_transform` raises
`ValueError` when its vocabulary is empty, which the embedding surfaces as an
`Except.error`; otherwise the top `n` vocabulary terms are returned in the
order of `argsort()[::-1]` over the scores. -/
def extract_keywords (wordTok : String → List String) (stop : List String)
    (text : String) (n : Nat) : Except String (List String) :=
  let vocab := kwVocab wordTok stop text
  if vocab.isEmpty then
    Except.error "empty vocabulary"
  else
    Except.ok
      ((((argsortAsc (kwScores wordTok stop text)).reverse).take n).map
        (fun i => vocab.getD i ""))

/-- Embedding of the Python slice `l[-k:]` used as `argsort()[-num_sentences:]`
in `summarize_text`: the last `k` elements, except that `l[-0:]` is the whole
list. -/
def lastSlice (k : Nat) (l : List Nat) : List Nat :=
  if k = 0 then l else l.drop (l.length - k)

/-- Embedding of `summarize_text`. `sentTok` is the NLTK `sent_tokenize`
collaborator; `rowSums` is the sklearn collaborator returning, for a sentence
corpus, the per-sentence sums of TF-IDF row weights
(`sentence_vectors.sum(axis=1).A1`), or the `ValueError` that `fit_transform`
raises on an empty vocabulary. With at most `k` sentences all sentences are
joined unchanged; otherwise the sentences at the last `k` positions of the
ascending argsort of the scores are joined. -/
def summarize_text (sentTok : String → List String)
    (rowSums : List String → Except String (List ℚ)) (text : String) (k : Nat) :
    Except String String :=
  let sentences := sentTok text
  if sentences.length ≤ k then
    Except.ok (sjoin " " sentences)
  else
    match rowSums sentences with
    | Except.error e => Except.error e
    | Except.ok ranks =>
        Except.ok
          (sjoin " "
            ((lastSlice k (argsortAsc ranks)).map (fun i => sentences.getD i "")))

/-- One MongoDB document as assembled by `store_pdf_metadata`. -/
structure StoredDoc where
  filename : String
  path : String
  size : Nat
  content : String
  summary : String
  keywords : List String
deriving DecidableEq

/-- Embedding of `os.path.basename` for POSIX paths. -/
def basename (p : String) : String :=
  (tokenizeOn (fun c => c = '/') p).getLastD ""

/-- Embedding of `store_pdf_metadata`: the metadata document handed to
`collection.insert_one`. -/
def store_pdf_metadata (path : String) (size : Nat) (parsed_text summary : String)
    (keywords : List String) : StoredDoc :=
  { filename := basename path
    path := path
    size := size
    content := parsed_text
    summary := summary
    keywords := keywords }

/-- The process-wide `report_data` counters (a `defaultdict(int)` with keys
`processed_files`, `failed_files`, `total_size`). -/
structure Stats where
  processed_files : Nat
  failed_files : Nat
  total_size : Nat
deriving DecidableEq

instance {ε α : Type} [DecidableEq ε] [DecidableEq α] : DecidableEq (Except ε α) := fun x y =>
  match x, y with
  | Except.error a, Except.error b =>
      if h : a = b then isTrue (by rw [h]) else isFalse (fun he => h (Except.error.inj he))
  | Except.error _, Except.ok _ => isFalse (fun he => Except.noConfusion he)
  | Except.ok _, Except.error _ => isFalse (fun he => Except.noConfusion he)
  | Except.ok a, Except.ok b =>
      if h : a = b then isTrue (by rw [h]) else isFalse (fun he => h (Except.ok.inj he))

/-- The filesystem data and collaborator outcomes for one candidate file:
the PyPDF2 behaviour on the file, whether `collection.insert_one` succeeds,
and the `os.path.getsize` value. -/
structure PdfFile where
  path : String
  pages : PdfPages
  storeOk : Bool
  size : Nat
deriving DecidableEq

/-- Outcome of one `process_pdf` call in the interpreter that runs it: the
updated `report_data`, the documents actually inserted into MongoDB, and the
number of `logging.error` entries appended by its `except` branch. -/
structure FileOutcome where
  stats : Stats
  stored : List StoredDoc
  logged : Nat
deriving DecidableEq

/-- Embedding of `process_pdf`: parse, reject blank text (`ValueError("Parsed
PDF content is empty")`), summarize, extract keywords, store, then count the
success; every raised exception lands in the single `except` branch, which
logs once and increments `failed_files` once. The function is total: no error
escapes it. -/
def process_pdf (sentTok : String → List String)
    (rowSums : List String → Except String (List ℚ))
    (wordTok : String → List String) (stop : List String)
    (f : PdfFile) (s : Stats) : FileOutcome :=
  let text := (parse_pdf f.pages).1
  if pyBlank text then
    ⟨{ s with failed_files := s.failed_files + 1 }, [], 1⟩
  else
    match summarize_text sentTok rowSums text 3 with
    | Except.error _ => ⟨{ s with failed_files := s.failed_files + 1 }, [], 1⟩
    | Except.ok summary =>
        match extract_keywords wordTok stop text 5 with
        | Except.error _ => ⟨{ s with failed_files := s.failed_files + 1 }, [], 1⟩
        | Except.ok keywords =>
            if f.storeOk then
              ⟨{ s with
                  processed_files := s.processed_files + 1
                  total_size := s.total_size + f.size },
                [store_pdf_metadata f.path f.size text summary keywords], 0⟩
            else
              ⟨{ s with failed_files := s.failed_files + 1 }, [], 1⟩

/-- The report assembled by `generate_report` from `report_data`: counts, the
total size (reported in KB), and `avg_size = total_size / total_processed if
total_processed else 0` (Python float division, embedded over ℚ). -/
structure Report where
  total_processed : Nat
  total_failed : Nat
  total_size_kb : ℚ
  avg_size : ℚ
deriving DecidableEq

/-- Embedding of `generate_report`. -/
def generate_report (s : Stats) : Report :=
  { total_processed := s.processed_files
    total_failed := s.failed_files
    total_size_kb := (s.total_size : ℚ) / 1024
    avg_size :=
      if s.processed_files ≠ 0 then (s.total_size : ℚ) / (s.processed_files : ℚ) else 0 }

/-- The directory handed to `process_all_pdfs`: whether `os.path.exists` holds,
the `os.listdir` entries, and the file data behind each joined path. -/
structure Directory where
  dirExists : Bool
  entries : List String
  fileAt : String → PdfFile

/-- Embedding of `os.path.join(pdf_dir, pdf_file)` for POSIX paths. -/
def joinPath (dir f : String) : String := dir ++ "/" ++ f

/-- Observable result of one `process_all_pdfs` run. `workerOutcomes` records,
per dispatched candidate, what the `process_pdf` call computed inside its pool
worker process; `report` is what `generate_report` prints in the parent
process. -/
structure BatchResult where
  aborted : Bool
  workerOutcomes : List FileOutcome
  report : Option Report
deriving DecidableEq

/-- Embedding of `process_all_pdfs`. A missing directory aborts the run before
listing. Otherwise every candidate is dispatched to `pool.map` exactly once.
`multiprocessing.Pool` forks worker processes: each worker starts from a copy
of the parent interpreter's global `report_data` (value `s`) and mutates only
that copy, so the increments performed inside `process_pdf` never reach the
parent, whose `report_data` is still `s` when `generate_report` runs. -/
def process_all_pdfs (sentTok : String → List String)
    (rowSums : List String → Except String (List ℚ))
    (wordTok : String → List String) (stop : List String)
    (pdf_dir : String) (d : Directory) (s : Stats) : BatchResult :=
  if !d.dirExists then
    ⟨true, [], none⟩
  else
    let pdf_files := list_pdfs d.entries
    ⟨false,
      pdf_files.map
        (fun f => process_pdf sentTok rowSums wordTok stop (d.fileAt (joinPath pdf_dir f)) s),
      some (generate_report s)⟩

/-- The counters a batch would accumulate if the per-file increments of
`process_pdf` were visible to the process that prints the report, i.e. the
shared-memory dispatch semantics that section 5 of the specification states as
the intent (atomic or single-aggregator increments). Used to compare the
intended counters with the reported ones. -/
def runStatsShared (sentTok : String → List String)
    (rowSums : List String → Except String (List ℚ))
    (wordTok : String → List String) (stop : List String)
    (files : List PdfFile) (s : Stats) : Stats :=
  files.foldl (fun st f => (process_pdf sentTok rowSums wordTok stop f st).stats) s

/-! Concrete collaborator instances and fixtures used by witnesses and
counterexamples. -/

/-- Concrete vectorizer stand-in used in witnesses: scores each sentence by
its length (any scoring function exercises the selection logic). -/
def lenRowSums (ss : List String) : Except String (List ℚ) :=
  Except.ok (ss.map (fun s => (s.length : ℚ)))

/-- Concrete candidate file used in witnesses: a one-page PDF whose text is
four distinct words. -/
def samplePdf : PdfFile :=
  { path := "dir/a.pdf"
    pages := Except.ok [Except.ok "Alpha beta gamma delta"]
    storeOk := true
    size := 100 }

/-- Concrete directory used to exhibit the counter loss across pool workers:
one candidate PDF among the entries. -/
def sampleDir : Directory :=
  { dirExists := true
    entries := ["a.pdf", "notes.txt"]
    fileAt := fun _ => samplePdf }

/-- Placeholder document used only as the default of `List.getD` in witnesses
that read a stored document out of a `process_pdf` outcome. -/
def dummyDoc : StoredDoc :=
  { filename := "", path := "", size := 0, content := "x", summary := "", keywords := [] }

/-! Claim C7. -/

/-- C7: for every text whose sentence segmentation yields at most `k`
sentences (`k` = 3 by default), `summarize_text` returns all sentences joined
with single spaces in their original order — the joined list is the
segmentation itself, so nothing is dropped, duplicated or reordered. -/
theorem summarize_text_few_sentences (sentTok : String → List String)
    (rowSums : List String → Except String (List ℚ)) (text : String) (k : Nat)
    (h : (sentTok text).length ≤ k) :
    summarize_text sentTok rowSums text k = Except.ok (sjoin " " (sentTok text)) := by
  unfold summarize_text
  rw [if_pos h]

/-- Witness for C7 at a concrete two-sentence text and the default `k` = 3. -/
theorem summarize_text_few_sentences_witness :
    (splitSentences "hi. there").length ≤ 3 ∧
    summarize_text splitSentences lenRowSums "hi. there" 3 =
      Except.ok (sjoin " " (splitSentences "hi. there")) :=
  ⟨by decide, summarize_text_few_sentences splitSentences lenRowSums "hi. there" 3 (by decide)⟩

/-! Claim C8. -/

/-- C8: in the report of `generate_report`, the average size equals
`total_size / processed_files` when `processed_files > 0` (in particular it
recovers `total_size` when multiplied back) and equals 0 when
`processed_files = 0`, so the guarded division never divides by zero. -/
theorem generate_report_avg_size (s : Stats) :
    (0 < s.processed_files →
      (generate_report s).avg_size = (s.total_size : ℚ) / (s.processed_files : ℚ) ∧
      (generate_report s).avg_size * (s.processed_files : ℚ) = (s.total_size : ℚ)) ∧
    (s.processed_files = 0 → (generate_report s).avg_size = 0) := by
  constructor
  · intro h
    have hne : s.processed_files ≠ 0 := Nat.pos_iff_ne_zero.mp h
    have hcast : ((s.processed_files : ℚ)) ≠ 0 := Nat.cast_ne_zero.mpr hne
    constructor
    · simp [generate_report, hne]
    · simp only [generate_report, if_pos hne]
      exact div_mul_cancel₀ _ hcast
  · intro h
    simp [generate_report, h]

/-- Witness for C8 at a report with two processed files, and at one with
none. -/
theorem generate_report_avg_size_witness :
    (generate_report ⟨2, 1, 300⟩).avg_size = (300 : ℚ) / (2 : ℚ) ∧
    (generate_report ⟨0, 5, 0⟩).avg_size = 0 :=
  ⟨((generate_report_avg_size ⟨2, 1, 300⟩).1 (by decide)).1,
    (generate_report_avg_size ⟨0, 5, 0⟩).2 rfl⟩

/-! Claim C5. -/

/-- Concatenation of a list of strings, used to state the page-joining
behaviour of `parse_pdf`. -/
def concatAll : List String → String
  | [] => ""
  | x :: xs => x ++ concatAll xs

/-- C5 counterexample: on a successfully parsed one-page file with page text
`"hello"`, `parse_pdf` returns `"hello "` — every page text has a space
appended, so the result is not the pages separated by single spaces (which
would be `"hello"`). -/
theorem parse_pdf_not_single_space_separated :
    (parse_pdf (Except.ok [Except.ok "hello"])).1 = "hello " ∧
    (parse_pdf (Except.ok [Except.ok "hello"])).1 ≠ sjoin " " ["hello"] := by
  constructor
  · rfl
  · decide

/-- C5 amended: `parse_pdf` appends a single space after every page text, so a
fully parsed file yields the in-order concatenation of `page ++ " "` (with a
trailing space) and no logged error; a file that cannot be opened or parsed
yields the empty string plus a logged error; a page failure partway keeps the
text of the pages already read (plus a logged error). The function is total:
no failure escapes it. -/
theorem parse_pdf_contract (ps : List String) (err : String)
    (tail : List (Except String String)) :
    parse_pdf (Except.ok (ps.map Except.ok)) =
      (concatAll (ps.map (fun p => p ++ " ")), false) ∧
    parse_pdf (Except.error err) = ("", true) ∧
    parse_pdf (Except.ok (ps.map Except.ok ++ Except.error err :: tail)) =
      (concatAll (ps.map (fun p => p ++ " ")), true) := by
  refine ⟨?_, rfl, ?_⟩
  · induction ps with
    | nil => rfl
    | cons p ps ih =>
        simp only [List.map_cons, parse_pdf, pageConcat, anyPageError, concatAll] at ih ⊢
        rw [Prod.mk.injEq] at ih ⊢
        exact ⟨by rw [ih.1], ih.2⟩
  · induction ps with
    | nil => rfl
    | cons p ps ih =>
        simp only [List.map_cons, List.cons_append, List.append_eq, parse_pdf, pageConcat,
          anyPageError, concatAll] at ih ⊢
        rw [Prod.mk.injEq] at ih ⊢
        exact ⟨by rw [ih.1], ih.2⟩

/-! Claim C4. -/

/-- C4 counterexample: on the empty text the filtered token list is empty, so
`fit_transform` raises sklearn's empty-vocabulary `ValueError` inside
`extract_keywords` instead of returning the empty keyword sequence. -/
theorem extract_keywords_raises_on_empty_input :
    extract_keywords splitWords sampleStopwords "" 5 = Except.error "empty vocabulary" ∧
    extract_keywords splitWords sampleStopwords "" 5 ≠ Except.ok [] := by
  constructor
  · rfl
  · decide

/-- C4 amended: `extract_keywords` raises sklearn's empty-vocabulary
`ValueError` exactly when the vectorizer's vocabulary over the filtered tokens
is empty — in particular on empty input, whose token list is empty — and
returns normally whenever the vocabulary is nonempty. -/
theorem extract_keywords_error_iff (wordTok : String → List String) (stop : List String)
    (text : String) (n : Nat) :
    (extract_keywords wordTok stop text n = Except.error "empty vocabulary" ↔
      kwVocab wordTok stop text = []) ∧
    (wordTok text = [] →
      extract_keywords wordTok stop text n = Except.error "empty vocabulary") ∧
    (kwVocab wordTok stop text ≠ [] →
      ∃ r, extract_keywords wordTok stop text n = Except.ok r) := by
  have hmain : (extract_keywords wordTok stop text n = Except.error "empty vocabulary" ↔
      kwVocab wordTok stop text = []) := by
    unfold extract_keywords
    by_cases hv : (kwVocab wordTok stop text).isEmpty = true
    · rw [if_pos hv]
      simp [List.isEmpty_iff.mp hv]
    · rw [if_neg hv]
      constructor
      · intro he
        exact absurd he (by simp)
      · intro he
        exact absurd (List.isEmpty_iff.mpr he) hv
  refine ⟨hmain, ?_, ?_⟩
  · intro he
    apply hmain.mpr
    rw [kwVocab, he]
    rfl
  · intro hne
    unfold extract_keywords
    rw [if_neg (fun hv => hne (List.isEmpty_iff.mp hv))]
    exact ⟨_, rfl⟩

/-- Witness for C4 amended: a text whose words all fall to the filters (a
stop-word and a one-letter word) makes `extract_keywords` raise, via the
empty-vocabulary characterisation. -/
theorem extract_keywords_error_iff_witness :
    extract_keywords splitWords sampleStopwords "the b" 5 = Except.error "empty vocabulary" :=
  (extract_keywords_error_iff splitWords sampleStopwords "the b" 5).1.mpr (by decide)

/-! Branch equations for `process_pdf`, used by the claims about the per-file
boundary. -/

/-- The failure outcome of `process_pdf`: the `except` branch logs once and
increments `failed_files` once. -/
def failOutcome (s : Stats) : FileOutcome :=
  ⟨{ s with failed_files := s.failed_files + 1 }, [], 1⟩

theorem process_pdf_eq_of_blank (sentTok : String → List String)
    (rowSums : List String → Except String (List ℚ))
    (wordTok : String → List String) (stop : List String) (f : PdfFile) (s : Stats)
    (hb : pyBlank (parse_pdf f.pages).1 = true) :
    process_pdf sentTok rowSums wordTok stop f s = failOutcome s := by
  simp [process_pdf, failOutcome, hb]

theorem process_pdf_eq_of_sum_error (sentTok : String → List String)
    (rowSums : List String → Except String (List ℚ))
    (wordTok : String → List String) (stop : List String) (f : PdfFile) (s : Stats)
    (e : String) (hb : pyBlank (parse_pdf f.pages).1 = false)
    (hsum : summarize_text sentTok rowSums (parse_pdf f.pages).1 3 = Except.error e) :
    process_pdf sentTok rowSums wordTok stop f s = failOutcome s := by
  simp [process_pdf, failOutcome, hb, hsum]

theorem process_pdf_eq_of_kw_error (sentTok : String → List String)
    (rowSums : List String → Except String (List ℚ))
    (wordTok : String → List String) (stop : List String) (f : PdfFile) (s : Stats)
    (sm e : String) (hb : pyBlank (parse_pdf f.pages).1 = false)
    (hsum : summarize_text sentTok rowSums (parse_pdf f.pages).1 3 = Except.ok sm)
    (hkw : extract_keywords wordTok stop (parse_pdf f.pages).1 5 = Except.error e) :
    process_pdf sentTok rowSums wordTok stop f s = failOutcome s := by
  simp [process_pdf, failOutcome, hb, hsum, hkw]

theorem process_pdf_eq_of_store_error (sentTok : String → List String)
    (rowSums : List String → Except String (List ℚ))
    (wordTok : String → List String) (stop : List String) (f : PdfFile) (s : Stats)
    (sm : String) (ks : List String) (hb : pyBlank (parse_pdf f.pages).1 = false)
    (hsum : summarize_text sentTok rowSums (parse_pdf f.pages).1 3 = Except.ok sm)
    (hkw : extract_keywords wordTok stop (parse_pdf f.pages).1 5 = Except.ok ks)
    (hst : f.storeOk = false) :
    process_pdf sentTok rowSums wordTok stop f s = failOutcome s := by
  simp [process_pdf, failOutcome, hb, hsum, hkw, hst]

theorem process_pdf_eq_of_ok (sentTok : String → List String)
    (rowSums : List String → Except String (List ℚ))
    (wordTok : String → List String) (stop : List String) (f : PdfFile) (s : Stats)
    (sm : String) (ks : List String) (hb : pyBlank (parse_pdf f.pages).1 = false)
    (hsum : summarize_text sentTok rowSums (parse_pdf f.pages).1 3 = Except.ok sm)
    (hkw : extract_keywords wordTok stop (parse_pdf f.pages).1 5 = Except.ok ks)
    (hst : f.storeOk = true) :
    process_pdf sentTok rowSums wordTok stop f s =
      ⟨{ s with
          processed_files := s.processed_files + 1
          total_size := s.total_size + f.size },
        [store_pdf_metadata f.path f.size (parse_pdf f.pages).1 sm ks], 0⟩ := by
  simp [process_pdf, hb, hsum, hkw, hst]

/-! Claim C2. -/

/-- C2: `process_pdf` contains every per-file error: it is a total function of
its inputs (no exception escapes, by construction of the embedding), every
call increments exactly one of the two counters, a failing call logs exactly
once and stores nothing, and `failed_files` is incremented precisely when the
extracted text is blank (the `EmptyDocument` `ValueError`) or a downstream
step (summarization, keyword extraction, persistence) fails. -/
theorem process_pdf_boundary (sentTok : String → List String)
    (rowSums : List String → Except String (List ℚ))
    (wordTok : String → List String) (stop : List String) (f : PdfFile) (s : Stats) :
    ((process_pdf sentTok rowSums wordTok stop f s).stats.processed_files +
        (process_pdf sentTok rowSums wordTok stop f s).stats.failed_files =
      s.processed_files + s.failed_files + 1) ∧
    (((process_pdf sentTok rowSums wordTok stop f s).stats.failed_files = s.failed_files + 1 ∧
        (process_pdf sentTok rowSums wordTok stop f s).stats.processed_files =
          s.processed_files ∧
        (process_pdf sentTok rowSums wordTok stop f s).logged = 1 ∧
        (process_pdf sentTok rowSums wordTok stop f s).stored = []) ∨
      ((process_pdf sentTok rowSums wordTok stop f s).stats.failed_files = s.failed_files ∧
        (process_pdf sentTok rowSums wordTok stop f s).stats.processed_files =
          s.processed_files + 1 ∧
        (process_pdf sentTok rowSums wordTok stop f s).logged = 0)) ∧
    ((process_pdf sentTok rowSums wordTok stop f s).stats.failed_files = s.failed_files + 1 ↔
      (pyBlank (parse_pdf f.pages).1 = true ∨
        (∃ e, summarize_text sentTok rowSums (parse_pdf f.pages).1 3 = Except.error e) ∨
        (∃ e, extract_keywords wordTok stop (parse_pdf f.pages).1 5 = Except.error e) ∨
        f.storeOk = false)) := by
  cases hb : pyBlank (parse_pdf f.pages).1 with
  | true =>
      rw [process_pdf_eq_of_blank sentTok rowSums wordTok stop f s hb]
      exact ⟨by simp [failOutcome]; omega, Or.inl ⟨rfl, rfl, rfl, rfl⟩,
        iff_of_true rfl (Or.inl rfl)⟩
  | false =>
      cases hsum : summarize_text sentTok rowSums (parse_pdf f.pages).1 3 with
      | error e =>
          rw [process_pdf_eq_of_sum_error sentTok rowSums wordTok stop f s e hb hsum]
          exact ⟨by simp [failOutcome]; omega, Or.inl ⟨rfl, rfl, rfl, rfl⟩,
            iff_of_true rfl (Or.inr (Or.inl ⟨e, rfl⟩))⟩
      | ok sm =>
          cases hkw : extract_keywords wordTok stop (parse_pdf f.pages).1 5 with
          | error e =>
              rw [process_pdf_eq_of_kw_error sentTok rowSums wordTok stop f s sm e hb hsum hkw]
              exact ⟨by simp [failOutcome]; omega, Or.inl ⟨rfl, rfl, rfl, rfl⟩,
                iff_of_true rfl (Or.inr (Or.inr (Or.inl ⟨e, rfl⟩)))⟩
          | ok ks =>
              cases hst : f.storeOk with
              | false =>
                  rw [process_pdf_eq_of_store_error sentTok rowSums wordTok stop f s sm ks hb
                    hsum hkw hst]
                  exact ⟨by simp [failOutcome]; omega, Or.inl ⟨rfl, rfl, rfl, rfl⟩,
                    iff_of_true rfl (Or.inr (Or.inr (Or.inr rfl)))⟩
              | true =>
                  rw [process_pdf_eq_of_ok sentTok rowSums wordTok stop f s sm ks hb hsum hkw hst]
                  refine ⟨by simp; omega, Or.inr ⟨rfl, rfl, rfl⟩,
                    iff_of_false (by simp) ?hnone⟩
                  rintro (h | ⟨e, he⟩ | ⟨e, he⟩ | h)
                  · exact Bool.false_ne_true h
                  · exact Except.noConfusion he
                  · exact Except.noConfusion he
                  · exact Bool.false_ne_true h.symm

/-- Witness for C2: a concrete successful run increments the counters by
exactly one in total. -/
theorem process_pdf_boundary_witness :
    (process_pdf splitSentences lenRowSums splitWords sampleStopwords samplePdf
        ⟨0, 0, 0⟩).stats.processed_files +
      (process_pdf splitSentences lenRowSums splitWords sampleStopwords samplePdf
        ⟨0, 0, 0⟩).stats.failed_files = 0 + 0 + 1 :=
  (process_pdf_boundary splitSentences lenRowSums splitWords sampleStopwords samplePdf
    ⟨0, 0, 0⟩).1

/-! Claim C10. -/

/-- C10: every document the pipeline hands to `insert_one` has non-blank
content. `process_pdf` calls `store_pdf_metadata` only after the blank-text
check has passed, and the stored record's `content` field is exactly the
checked text, so no stored document is empty or whitespace-only. -/
theorem process_pdf_stored_nonblank (sentTok : String → List String)
    (rowSums : List String → Except String (List ℚ))
    (wordTok : String → List String) (stop : List String) (f : PdfFile) (s : Stats)
    (d : StoredDoc) (hd : d ∈ (process_pdf sentTok rowSums wordTok stop f s).stored) :
    pyBlank d.content = false := by
  cases hb : pyBlank (parse_pdf f.pages).1 with
  | true =>
      rw [process_pdf_eq_of_blank sentTok rowSums wordTok stop f s hb] at hd
      exact absurd hd (List.not_mem_nil d)
  | false =>
      cases hsum : summarize_text sentTok rowSums (parse_pdf f.pages).1 3 with
      | error e =>
          rw [process_pdf_eq_of_sum_error sentTok rowSums wordTok stop f s e hb hsum] at hd
          exact absurd hd (List.not_mem_nil d)
      | ok sm =>
          cases hkw : extract_keywords wordTok stop (parse_pdf f.pages).1 5 with
          | error e =>
              rw [process_pdf_eq_of_kw_error sentTok rowSums wordTok stop f s sm e hb hsum
                hkw] at hd
              exact absurd hd (List.not_mem_nil d)
          | ok ks =>
              cases hst : f.storeOk with
              | false =>
                  rw [process_pdf_eq_of_store_error sentTok rowSums wordTok stop f s sm ks hb
                    hsum hkw hst] at hd
                  exact absurd hd (List.not_mem_nil d)
              | true =>
                  rw [process_pdf_eq_of_ok sentTok rowSums wordTok stop f s sm ks hb hsum hkw
                    hst] at hd
                  rw [List.mem_singleton] at hd
                  rw [hd]
                  exact hb

/-- Witness for C10: the document stored by a concrete successful run has
non-blank content. -/
theorem process_pdf_stored_nonblank_witness :
    pyBlank (((process_pdf splitSentences lenRowSums splitWords sampleStopwords samplePdf
        ⟨0, 0, 0⟩).stored.getD 0 dummyDoc).content) = false :=
  process_pdf_stored_nonblank splitSentences lenRowSums splitWords sampleStopwords samplePdf
    ⟨0, 0, 0⟩ _ (by decide)

/-! Claim C6. -/

theorem getD_mem_of_lt {α : Type} (l : List α) (i : Nat) (d : α) (h : i < l.length) :
    l.getD i d ∈ l := by
  rw [List.getD_eq_getElem l d h]
  exact List.getElem_mem h

theorem mem_filteredWords {stop ws : List String} {w : String}
    (h : w ∈ filteredWords stop ws) :
    ∃ v, v ∈ ws ∧ pyIsAlpha v = true ∧ stop.contains (pyLower v) = false ∧ w = pyLower v := by
  unfold filteredWords at h
  rcases List.mem_map.mp h with ⟨v, hv, rfl⟩
  rcases List.mem_filter.mp hv with ⟨hvw, hcond⟩
  rw [Bool.and_eq_true] at hcond
  exact ⟨v, hvw, hcond.1, by simpa using hcond.2, rfl⟩

theorem pyLower_no_upper (v : String) : ∀ c ∈ (pyLower v).data, c.isUpper = false := by
  intro c hc
  rcases List.mem_map.mp hc with ⟨c0, _, rfl⟩
  exact char_isUpper_toLower c0

theorem pyIsAlpha_pyLower (v : String) (h : pyIsAlpha v = true) :
    pyIsAlpha (pyLower v) = true := by
  unfold pyIsAlpha at h ⊢
  rw [Bool.and_eq_true] at h ⊢
  constructor
  · have h1 := h.1
    rw [Bool.not_eq_true'] at h1 ⊢
    simpa [pyLower] using h1
  · have h2 := h.2
    rw [List.all_eq_true] at h2 ⊢
    intro c hc
    rcases List.mem_map.mp hc with ⟨c0, hc0, rfl⟩
    exact char_isAlpha_toLower c0 (h2 c0 hc0)

theorem mem_kwVocab {wordTok : String → List String} {stop : List String} {text : String}
    {w : String} (h : w ∈ kwVocab wordTok stop text) :
    w ∈ filteredWords stop (wordTok text) := by
  unfold kwVocab sklearnVocab sortStrings at h
  rw [List.mem_insertionSort, List.mem_dedup] at h
  unfold sklearnTokens at h
  exact (List.mem_filter.mp h).1

theorem kwScores_length (wordTok : String → List String) (stop : List String)
    (text : String) :
    (kwScores wordTok stop text).length = (kwVocab wordTok stop text).length := by
  unfold kwScores
  exact List.length_map _ _

/-- C6: whenever `extract_keywords` returns a keyword sequence, it has at most
`n` terms (`n` = 5 by default), each entirely lower-case, entirely alphabetic,
and not a member of the stop-word set used for filtering. -/
theorem extract_keywords_shape (wordTok : String → List String) (stop : List String)
    (text : String) (n : Nat) (r : List String)
    (h : extract_keywords wordTok stop text n = Except.ok r) :
    r.length ≤ n ∧
      ∀ w ∈ r, (∀ c ∈ w.data, c.isUpper = false) ∧ pyIsAlpha w = true ∧
        stop.contains w = false := by
  unfold extract_keywords at h
  by_cases hv : (kwVocab wordTok stop text).isEmpty = true
  · rw [if_pos hv] at h
    exact absurd h (by simp)
  · rw [if_neg hv] at h
    have hr : r = (((argsortAsc (kwScores wordTok stop text)).reverse).take n).map
        (fun i => (kwVocab wordTok stop text).getD i "") := (Except.ok.inj h).symm
    constructor
    · rw [hr, List.length_map, List.length_take]
      exact min_le_left _ _
    · intro w hw
      rw [hr] at hw
      rcases List.mem_map.mp hw with ⟨i, hi, rfl⟩
      have hilt : i < (kwVocab wordTok stop text).length := by
        rw [← kwScores_length wordTok stop text]
        exact mem_argsortAsc.mp (List.mem_reverse.mp (List.mem_of_mem_take hi))
      have hvm : (kwVocab wordTok stop text).getD i "" ∈ kwVocab wordTok stop text :=
        getD_mem_of_lt _ i "" hilt
      rcases mem_filteredWords (mem_kwVocab hvm) with ⟨v, _, halpha, hstop, heq⟩
      rw [heq]
      exact ⟨pyLower_no_upper v, pyIsAlpha_pyLower v halpha, hstop⟩

/-- Witness for C6: a concrete call returns two keywords, and the shape
properties hold for them. -/
theorem extract_keywords_shape_witness :
    ((["bb", "aa"] : List String).length ≤ 5 ∧
      ∀ w ∈ (["bb", "aa"] : List String), (∀ c ∈ w.data, c.isUpper = false) ∧
        pyIsAlpha w = true ∧ sampleStopwords.contains w = false) :=
  extract_keywords_shape splitWords sampleStopwords "aa bb" 5 ["bb", "aa"] (by decide)

/-! Claim C9. -/

/-- C9 counterexample: in the text `"aa bb"` both terms occur once, so their
scores tie; the filtered token sequence has `"aa"` first, yet
`extract_keywords` returns `["bb", "aa"]` — ties come out in descending
vocabulary (reverse-alphabetical) order, not in first-occurrence order. -/
theorem extract_keywords_tie_reverse_alphabetical :
    filteredWords sampleStopwords (splitWords "aa bb") = ["aa", "bb"] ∧
    kwScores splitWords sampleStopwords "aa bb" = [1, 1] ∧
    extract_keywords splitWords sampleStopwords "aa bb" 5 = Except.ok ["bb", "aa"] ∧
    extract_keywords splitWords sampleStopwords "aa bb" 5 ≠ Except.ok ["aa", "bb"] := by
  exact ⟨by decide, by decide, by decide, by decide⟩

/-- C9 amended: the returned keywords are vocabulary terms ranked by strictly
descending score, and two terms of equal score are ordered by strictly
descending vocabulary position — reverse-alphabetically, since the vocabulary
is alphabetically ascending — not by first occurrence in the filtered token
sequence. -/
theorem extract_keywords_rank_desc (wordTok : String → List String) (stop : List String)
    (text : String) (n : Nat) (r : List String)
    (h : extract_keywords wordTok stop text n = Except.ok r) :
    (kwVocab wordTok stop text).Pairwise strLe ∧
    ∃ idxs : List Nat,
      r = idxs.map (fun i => (kwVocab wordTok stop text).getD i "") ∧
      (∀ i ∈ idxs, i < (kwVocab wordTok stop text).length) ∧
      idxs.Pairwise (fun i j =>
        (kwScores wordTok stop text).getD j 0 < (kwScores wordTok stop text).getD i 0 ∨
        ((kwScores wordTok stop text).getD i 0 = (kwScores wordTok stop text).getD j 0 ∧
          j < i)) := by
  constructor
  · unfold kwVocab sklearnVocab sortStrings
    exact List.sorted_insertionSort strLe _
  · unfold extract_keywords at h
    by_cases hv : (kwVocab wordTok stop text).isEmpty = true
    · rw [if_pos hv] at h
      exact absurd h (by simp)
    · rw [if_neg hv] at h
      refine ⟨((argsortAsc (kwScores wordTok stop text)).reverse).take n,
        (Except.ok.inj h).symm, ?_, ?_⟩
      · intro i hi
        rw [← kwScores_length wordTok stop text]
        exact mem_argsortAsc.mp (List.mem_reverse.mp (List.mem_of_mem_take hi))
      · have hrev : (argsortAsc (kwScores wordTok stop text)).reverse.Pairwise
            (fun i j => idxLeP (kwScores wordTok stop text) j i) :=
          List.pairwise_reverse.mpr (argsortAsc_sorted _)
        have hnd : (argsortAsc (kwScores wordTok stop text)).reverse.Pairwise
            (fun i j => i ≠ j) :=
          List.nodup_reverse.mpr (argsortAsc_nodup _)
        have htake := List.Pairwise.sublist (List.take_sublist n _) (hrev.and hnd)
        apply htake.imp
        intro a b hab
        rcases hab with ⟨h1 | ⟨heq, hba⟩, hne2⟩
        · exact Or.inl h1
        · exact Or.inr ⟨heq.symm, lt_of_le_of_ne hba (Ne.symm hne2)⟩

/-- Witness for C9 amended: a concrete call with one repeated term and two
tying terms returns the top two keywords, and the ranking properties hold. -/
theorem extract_keywords_rank_desc_witness :
    (kwVocab splitWords sampleStopwords "cc cc bb aa").Pairwise strLe ∧
    ∃ idxs : List Nat,
      (["cc", "bb"] : List String) = idxs.map
        (fun i => (kwVocab splitWords sampleStopwords "cc cc bb aa").getD i "") ∧
      (∀ i ∈ idxs, i < (kwVocab splitWords sampleStopwords "cc cc bb aa").length) ∧
      idxs.Pairwise (fun i j =>
        (kwScores splitWords sampleStopwords "cc cc bb aa").getD j 0 <
          (kwScores splitWords sampleStopwords "cc cc bb aa").getD i 0 ∨
        ((kwScores splitWords sampleStopwords "cc cc bb aa").getD i 0 =
          (kwScores splitWords sampleStopwords "cc cc bb aa").getD j 0 ∧ j < i)) :=
  extract_keywords_rank_desc splitWords sampleStopwords "cc cc bb aa" 2 ["cc", "bb"]
    (by decide)

/-! Claim C3. -/

/-- C3: for every text whose segmentation yields more than `k` sentences
(`k` = 3 by default) and whose scores the vectorizer returns, `summarize_text`
returns exactly `k` sentence positions joined by single spaces: the selection
is duplicate-free, every selected position scores at least as high as every
unselected one, and the selected sentences appear in ascending score order
(score order, not original document order). -/
theorem summarize_text_topk (sentTok : String → List String)
    (rowSums : List String → Except String (List ℚ)) (text : String) (k : Nat)
    (ranks : List ℚ)
    (hrow : rowSums (sentTok text) = Except.ok ranks)
    (hlen : ranks.length = (sentTok text).length)
    (hkpos : 0 < k) (hgt : k < (sentTok text).length) :
    ∃ sel : List Nat,
      summarize_text sentTok rowSums text k =
        Except.ok (sjoin " " (sel.map (fun i => (sentTok text).getD i ""))) ∧
      sel.length = k ∧ sel.Nodup ∧ (∀ i ∈ sel, i < (sentTok text).length) ∧
      sel.Pairwise (fun i j => ranks.getD i 0 ≤ ranks.getD j 0) ∧
      (∀ j, j < (sentTok text).length → j ∉ sel →
        ∀ i ∈ sel, ranks.getD j 0 ≤ ranks.getD i 0) := by
  have hk0 : k ≠ 0 := Nat.pos_iff_ne_zero.mp hkpos
  have hkr : k < ranks.length := by rw [hlen]; exact hgt
  have hslice : lastSlice k (argsortAsc ranks) =
      (argsortAsc ranks).drop ((argsortAsc ranks).length - k) := by
    unfold lastSlice
    rw [if_neg hk0]
  refine ⟨lastSlice k (argsortAsc ranks), ?_, ?_, ?_, ?_, ?_, ?_⟩
  · simp only [summarize_text]
    rw [if_neg (not_le.mpr hgt), hrow]
  · rw [hslice, List.length_drop, argsortAsc_length]
    omega
  · rw [hslice]
    exact List.Nodup.sublist (List.drop_sublist _ _) (argsortAsc_nodup ranks)
  · intro i hi
    rw [hslice] at hi
    have := mem_argsortAsc.mp (List.mem_of_mem_drop hi)
    rw [hlen] at this
    exact this
  · rw [hslice]
    refine (List.Pairwise.sublist (List.drop_sublist _ _) (argsortAsc_sorted ranks)).imp ?_
    intro a b hab
    rcases hab with h1 | ⟨heq, _⟩
    · exact le_of_lt h1
    · exact le_of_eq heq
  · intro j hj hjn i hi
    rw [hslice] at hjn hi
    have hj2 : j ∈ argsortAsc ranks := mem_argsortAsc.mpr (by rw [hlen]; exact hj)
    have hsplit := List.take_append_drop ((argsortAsc ranks).length - k) (argsortAsc ranks)
    have hjtake : j ∈ (argsortAsc ranks).take ((argsortAsc ranks).length - k) := by
      rcases List.mem_append.mp (by rw [hsplit]; exact hj2) with h | h
      · exact h
      · exact absurd h hjn
    have hp : List.Pairwise (idxLeP ranks)
        ((argsortAsc ranks).take ((argsortAsc ranks).length - k) ++
          (argsortAsc ranks).drop ((argsortAsc ranks).length - k)) := by
      rw [hsplit]
      exact argsortAsc_sorted ranks
    have hji := (List.pairwise_append.mp hp).2.2 j hjtake i hi
    rcases hji with h1 | ⟨heq, _⟩
    · exact le_of_lt h1
    · exact le_of_eq heq

/-- Witness for C3: a five-sentence text with `k` = 3; the selection keeps the
three highest-scoring sentences in ascending score order. -/
theorem summarize_text_topk_witness :
    ∃ sel : List Nat,
      summarize_text splitSentences lenRowSums "aaa. b. cc. dddd. e" 3 =
        Except.ok (sjoin " " (sel.map (fun i =>
          (splitSentences "aaa. b. cc. dddd. e").getD i ""))) ∧
      sel.length = 3 ∧ sel.Nodup ∧
      (∀ i ∈ sel, i < (splitSentences "aaa. b. cc. dddd. e").length) ∧
      sel.Pairwise (fun i j =>
        ([3, 2, 3, 5, 2] : List ℚ).getD i 0 ≤ ([3, 2, 3, 5, 2] : List ℚ).getD j 0) ∧
      (∀ j, j < (splitSentences "aaa. b. cc. dddd. e").length → j ∉ sel →
        ∀ i ∈ sel,
          ([3, 2, 3, 5, 2] : List ℚ).getD j 0 ≤ ([3, 2, 3, 5, 2] : List ℚ).getD i 0) :=
  summarize_text_topk splitSentences lenRowSums "aaa. b. cc. dddd. e" 3 [3, 2, 3, 5, 2]
    (by decide) (by decide) (by decide) (by decide)

/-! Claim C1. -/

/-- C1 exhibit: on a directory with exactly one candidate PDF that processes
successfully, `process_all_pdfs` dispatches `process_pdf` once and that call
increments exactly one counter inside its pool worker — but the report the
parent process prints still shows `processed_files + failed_files = 0`,
because the worker mutated a forked copy of `report_data`. The intended
shared-memory accumulation (`runStatsShared`) would report the sum 1, equal to
the number of candidates. -/
theorem batch_report_counts_lost :
    (list_pdfs sampleDir.entries).length = 1 ∧
    (process_all_pdfs splitSentences lenRowSums splitWords sampleStopwords "dir" sampleDir
        ⟨0, 0, 0⟩).report = some (generate_report ⟨0, 0, 0⟩) ∧
    (generate_report ⟨0, 0, 0⟩).total_processed + (generate_report ⟨0, 0, 0⟩).total_failed
      = 0 ∧
    ((process_all_pdfs splitSentences lenRowSums splitWords sampleStopwords "dir" sampleDir
        ⟨0, 0, 0⟩).workerOutcomes.map
          (fun o => o.stats.processed_files + o.stats.failed_files)) = [1] ∧
    (runStatsShared splitSentences lenRowSums splitWords sampleStopwords [samplePdf]
        ⟨0, 0, 0⟩).processed_files +
      (runStatsShared splitSentences lenRowSums splitWords sampleStopwords [samplePdf]
        ⟨0, 0, 0⟩).failed_files = 1 := by
  exact ⟨by decide, rfl, rfl, by decide, by decide⟩
